import Mathlib

/-!
Verification of the reconciliation engine of `dbt-superset-lineage`
(`dbt_superset_lineage/push_descriptions.py` and `dbt_superset_lineage/utils.py`).

The Python source is shallowly embedded below: pure functions become Lean
functions, the network boundary (the Superset HTTP client, the external
markdown renderer) is modelled explicitly, exceptions become `Except`
values, and side effects (HTTP requests) are reified as lists of
`ApiCall` values so that theorems can count the writes a run performs.
-/

namespace DbtSupersetLineage

/- ### Model of `convert_markdown_to_plain_text` (push_descriptions.py lines 35-60)

The function is the composition
  markdown rendering (external `markdown` library)
  → two `re.sub` passes removing delimited regions
  → BeautifulSoup text extraction
  → whitespace collapsing
  → two literal substring fixes.
Each stage is embedded below at the string level. -/

/-- Model of the external python-markdown renderer (a library outside this
repository, called as `markdown(md_string)` on line 43).  It is modelled for
single-paragraph inputs whose only markup is inline code spans delimited by
backticks, following the renderer's documented output for such inputs: the
paragraph is wrapped in a p element and each backtick span becomes a code
element.  (HTML entity escaping inside code spans is not modelled; the
inputs used in the theorems below avoid characters that would be escaped.)
`renderText` processes ordinary text; `renderCode` processes the inside of
an open code span until the closing backtick. -/
def renderText : List Char → List Char
  | [] => []
  | c :: rest =>
    if c = '`' then '<' :: 'c' :: 'o' :: 'd' :: 'e' :: '>' :: renderCodeSpan rest
    else c :: renderText rest
where
  /-- Inside a backtick span: copy characters until the closing backtick,
  then emit the closing code tag and return to `renderText`. -/
  renderCodeSpan : List Char → List Char
    | [] => '<' :: '/' :: 'c' :: 'o' :: 'd' :: 'e' :: '>' :: []
    | c :: rest =>
      if c = '`' then '<' :: '/' :: 'c' :: 'o' :: 'd' :: 'e' :: '>' :: renderText rest
      else c :: renderCodeSpan rest

/-- Model of `markdown(md_string)` (line 43): render the inline markup and
wrap the (single) paragraph in a p element. -/
def markdownRender (md : String) : String :=
  "<p>" ++ String.mk (renderText md.data) ++ "</p>"

/-- Helper for the `re.sub` models: starting right after an occurrence of the
opening delimiter, find the earliest following occurrence of `close` such
that the characters in between contain no newline (Python's `.` in the
patterns on lines 46-47 does not match a newline, so a match may not span
lines), and return the suffix after that occurrence.  `none` when no such
occurrence exists. -/
def findCloseNoNl (close : List Char) : List Char → Option (List Char)
  | [] => none
  | c :: rest =>
    if close.isPrefixOf (c :: rest) then some ((c :: rest).drop close.length)
    else if c = '\n' then none
    else findCloseNoNl close rest

/-- Model of `re.sub(opn + '(.*?)' + close, ' ', s)` with literal delimiters
(lines 46-47): scan left to right; at each position where `opn` begins and a
newline-free minimal match up to `close` exists, replace the whole match
with a single space and continue after it; otherwise keep the character.
The fuel argument is the input length; it only bounds recursion. -/
def subDelimAux (opn close : List Char) : Nat → List Char → List Char
  | 0, l => l
  | _ + 1, [] => []
  | fuel + 1, c :: rest =>
    if opn.isPrefixOf (c :: rest) then
      match findCloseNoNl close ((c :: rest).drop opn.length) with
      | some after => ' ' :: subDelimAux opn close fuel after
      | none => c :: subDelimAux opn close fuel rest
    else c :: subDelimAux opn close fuel rest

/-- String-level wrapper for `subDelimAux`. -/
def subDelim (opn close s : String) : String :=
  String.mk (subDelimAux opn.data close.data s.data.length s.data)

/-- Model of BeautifulSoup text extraction (lines 50-51):
`''.join(soup.findAll(text=True))` concatenates every text node, i.e. it
keeps exactly the characters lying outside tag regions.  The boolean flag
records whether the scanner is currently inside a tag. -/
def extractTextAux : Bool → List Char → List Char
  | _, [] => []
  | true, c :: rest =>
    if c = '>' then extractTextAux false rest else extractTextAux true rest
  | false, c :: rest =>
    if c = '<' then extractTextAux true rest else c :: extractTextAux false rest

/-- String-level wrapper for `extractTextAux`. -/
def extractText (s : String) : String :=
  String.mk (extractTextAux false s.data)

/-- Python's `\s` character class (the characters collapsed on line 54). -/
def isPyWs (c : Char) : Bool :=
  c = ' ' || c = '\t' || c = '\n' || c = '\r' || c = '\x0b' || c = '\x0c'

/-- Model of `re.sub(r'\s+', ' ', text)` (line 54): every maximal run of
whitespace becomes a single space.  The flag records whether the previous
character belonged to a whitespace run. -/
def collapseWsAux : Bool → List Char → List Char
  | _, [] => []
  | prevWs, c :: rest =>
    if isPyWs c then
      if prevWs then collapseWsAux true rest else ' ' :: collapseWsAux true rest
    else c :: collapseWsAux false rest

/-- String-level wrapper for `collapseWsAux`. -/
def collapseWs (s : String) : String :=
  String.mk (collapseWsAux false s.data)

/-- Model of `re.sub(pat, repl, s)` for a literal pattern with no regex
metacharacters (the two fixes on lines 57-58): replace every non-overlapping
leftmost occurrence.  The fuel argument is the input length. -/
def replaceSubAux (pat repl : List Char) : Nat → List Char → List Char
  | 0, l => l
  | _ + 1, [] => []
  | fuel + 1, c :: rest =>
    if pat.isPrefixOf (c :: rest) ∧ pat ≠ [] then
      repl ++ replaceSubAux pat repl fuel ((c :: rest).drop pat.length)
    else c :: replaceSubAux pat repl fuel rest

/-- String-level wrapper for `replaceSubAux`. -/
def replaceSub (pat repl s : String) : String :=
  String.mk (replaceSubAux pat.data repl.data s.data.length s.data)

/-- Embedding of `convert_markdown_to_plain_text` (lines 35-60): markdown
rendering, removal of pre regions, removal of regions delimited by a code
open tag and the (misspelled) close delimiter with an embedded space taken
verbatim from line 47, text extraction, whitespace collapsing, and the two
literal fixes (the mis-rendered arrow glyph, and the null token). -/
def convert_markdown_to_plain_text (md_string : String) : String :=
  let html := markdownRender md_string
  let html := subDelim "<pre>" "</pre>" html
  let html := subDelim "<code>" "</code >" html
  let text := extractText html
  let single_line := collapseWs text
  let single_line := replaceSub "â†’" "->" single_line
  replaceSub "<null>" "\x22null\x22" single_line

/- ### Data model

Catalog-side (Superset) records as fetched by `add_superset_columns`
(push_descriptions.py lines 22-32) and manifest-side (dbt) records as
exposed by the parsed manifest (`ModelNode`).  Descriptions coming from the
Superset API may be JSON null, hence `Option String`; dbt column
descriptions are plain strings (the code passes them to the renderer
unconditionally on line 96). -/

/-- A column of a Superset dataset as returned by the detail endpoint:
id, column_name, description and expression (null or empty means a simple
passthrough column, non-empty means a computed column). -/
structure SstColumn where
  id : Int
  column_name : String
  description : Option String
  expression : Option String
deriving DecidableEq, Repr

/-- An owner entry of a Superset dataset (only the id is consumed,
line 112). -/
structure Owner where
  id : Int
deriving DecidableEq, Repr

/-- A Superset physical dataset after `add_superset_columns` filled in
columns, description and owners (lines 22-32): the listing fields id and
key plus the detail fields. -/
structure SstDataset where
  id : Int
  key : String
  columns : List SstColumn
  description : Option String
  owners : List Owner
deriving DecidableEq, Repr

/-- A dbt column entry (`ColumnInfo`): only the description is consumed
(line 95). -/
structure ColumnMeta where
  description : String
deriving DecidableEq, Repr

/-- A dbt model node as consumed from the parsed manifest: schema, name,
database, optional description, and the name-keyed column mapping.  The
mapping is embedded as an association list in insertion order. -/
structure ModelNode where
  schema_ : String
  name : String
  database : String
  description : Option String
  columns : List (String × ColumnMeta)
deriving DecidableEq, Repr

/-- An entry of `columns_new` (built on lines 85-99) and of `columns_old`
(built on lines 137-141): the column_name, id, description projection of a
column. -/
structure ColumnOut where
  column_name : String
  id : Int
  description : Option String
deriving DecidableEq, Repr

/-- The result of `merge_columns_info` (lines 63-114): the Python code
mutates the dataset dict in place, adding the keys columns_new,
description_new and owners_new next to the existing fields; the embedding
keeps the unchanged dataset in `base` and the three new fields beside it. -/
structure MergedDataset where
  base : SstDataset
  columns_new : List ColumnOut
  description_new : Option String
  owners_new : List Int
deriving DecidableEq, Repr

/-- A reified Superset API request issued by the reconciliation code.  Only
the update (PUT dataset) call carries a payload the theorems inspect. -/
inductive ApiCall where
  | update (dataset_id : Int) (description : Option String)
      (columns : List ColumnOut) (owners : List Int)
deriving DecidableEq, Repr

/- ### Merger (`merge_columns_info`, push_descriptions.py lines 63-114) -/

/-- The column mapping of the manifest table matched by `key`, or the empty
mapping when the key has no match (lines 68, 73-74). -/
def dbtColumnsOf (tables : List (String × ModelNode)) (key : String) :
    List (String × ColumnMeta) :=
  match tables.lookup key with
  | some t => t.columns
  | none => []

/-- The description of the manifest table matched by `key`, or `none` when
the key has no match (lines 71, 73-75). -/
def dbtDescriptionOf (tables : List (String × ModelNode)) (key : String) :
    Option String :=
  match tables.lookup key with
  | some t => t.description
  | none => none

/-- The body of the per-column loop of `merge_columns_info` (lines 80-101):
copy column_name and id; the description is overridden with the translated
manifest description exactly when the column name exists in the matched
manifest columns and the expression is null or the empty string, and kept
otherwise. -/
def mergeColumn (dbt_columns : List (String × ColumnMeta))
    (sst_column : SstColumn) : ColumnOut :=
  { column_name := sst_column.column_name
    id := sst_column.id
    description :=
      match dbt_columns.lookup sst_column.column_name with
      | some meta =>
        if sst_column.expression = none ∨ sst_column.expression = some "" then
          some (convert_markdown_to_plain_text meta.description)
        else sst_column.description
      | none => sst_column.description }

/-- Embedding of `merge_columns_info` (lines 63-114). -/
def merge_columns_info (dataset : SstDataset)
    (tables : List (String × ModelNode)) : MergedDataset :=
  { base := dataset
    columns_new := dataset.columns.map (mergeColumn (dbtColumnsOf tables dataset.key))
    description_new :=
      match dbtDescriptionOf tables dataset.key with
      | none => dataset.description
      | some d => some (convert_markdown_to_plain_text d)
    owners_new := dataset.owners.map (fun owner => owner.id) }

/- ### DiffGate (`check_columns_equal` line 117-118 and
`put_descriptions_to_superset` lines 129-149) -/

/-- Stable insertion of a column into a list ordered by id: the new element
goes before the first element with an id not smaller than its own. -/
def insertById (c : ColumnOut) : List ColumnOut → List ColumnOut
  | [] => [c]
  | d :: l => if c.id ≤ d.id then c :: d :: l else d :: insertById c l

/-- Stable sort by id, the embedding of `sorted(lst, key=lambda c: c["id"])`
(line 118): Python's sort is stable, and a stable sort's output is uniquely
determined by the key order, so stable insertion sort is an exact model. -/
def sortById : List ColumnOut → List ColumnOut
  | [] => []
  | c :: l => insertById c (sortById l)

/-- Embedding of `check_columns_equal` (lines 117-118): the two lists,
each sorted by id, are equal (Python list/dict equality is structural). -/
def check_columns_equal (lst1 lst2 : List ColumnOut) : Prop :=
  sortById lst1 = sortById lst2

instance (lst1 lst2 : List ColumnOut) : Decidable (check_columns_equal lst1 lst2) := by
  unfold check_columns_equal; infer_instance

/-- The `columns_old` projection built on lines 137-141 from the dataset's
current columns. -/
def columnsOld (dataset : SstDataset) : List ColumnOut :=
  dataset.columns.map (fun col =>
    { column_name := col.column_name, id := col.id, description := col.description })

/-- Embedding of `put_descriptions_to_superset` (lines 129-149), reified as
the list of API calls issued: one PUT update when the merged description
differs from the current one or the column check fails, no call at all
otherwise. -/
def put_descriptions_to_superset (m : MergedDataset) : List ApiCall :=
  if m.description_new ≠ m.base.description ∨
      ¬ check_columns_equal m.columns_new (columnsOld m.base) then
    [ApiCall.update m.base.id m.description_new m.columns_new m.owners_new]
  else []

/- ### Index building (`utils.py`) -/

/-- The failures raised by the index builders in utils.py: the duplicate
uniqueness assertion (lines 44-49 and 75-80) and the empty-manifest
assertion (line 84). -/
inductive BuildError where
  | DuplicateKey (key : String)
  | EmptyManifest
deriving DecidableEq, Repr

/-- A manifest entry as iterated by `get_tables_from_dbt`: the long node
key (for example a dotted name starting with model) together with the node
itself. -/
structure ManifestEntry where
  key_long : String
  node : ModelNode
deriving DecidableEq, Repr

/-- The parsed manifest: its nodes and sources mappings, each embedded as a
list in iteration order. -/
structure DbtManifest where
  nodes : List ManifestEntry
  sources : List ManifestEntry
deriving DecidableEq, Repr

/-- The first component of a dotted name: the prefix before the first dot
(the whole string when there is no dot), i.e. the first element of the
Python split on the dot. -/
def firstDotComponent (s : String) : String :=
  String.mk (s.data.takeWhile (fun c => c ≠ '.'))

/-- The model-kind test of utils.py line 69: the first dotted component of
the long key must be the word model. -/
def isModelEntry (e : ManifestEntry) : Bool :=
  firstDotComponent e.key_long == "model"

/-- The database filter of utils.py line 74. -/
def passesDbFilter (dbt_db_name : Option String) (t : ModelNode) : Bool :=
  dbt_db_name.isNone || dbt_db_name == some t.database

/-- One step of the loop body of `get_tables_from_dbt` (utils.py
lines 67-82), acting on the accumulated table mapping. -/
def dbtStep (dbt_db_name : Option String)
    (acc : Except BuildError (List (String × ModelNode))) (e : ManifestEntry) :
    Except BuildError (List (String × ModelNode)) := do
  let tables ← acc
  if isModelEntry e then
    let table := e.node
    let table_key_short := table.schema_ ++ "." ++ table.name
    if passesDbFilter dbt_db_name table then
      if (tables.lookup table_key_short).isSome then
        throw (BuildError.DuplicateKey table_key_short)
      else
        pure (tables ++ [(table_key_short, table)])
    else
      pure tables
  else
    pure tables

/-- Embedding of `get_tables_from_dbt` (utils.py lines 63-85): fold the
loop body over nodes then sources, and fail with the empty-manifest
assertion when nothing was collected. -/
def get_tables_from_dbt (dbt_manifest : DbtManifest)
    (dbt_db_name : Option String) :
    Except BuildError (List (String × ModelNode)) := do
  let tables ← (dbt_manifest.nodes ++ dbt_manifest.sources).foldl
    (dbtStep dbt_db_name) (pure [])
  if tables.isEmpty then throw BuildError.EmptyManifest else pure tables

/-- A dataset as returned by the Superset listing endpoint (the fields
consumed on utils.py lines 27-37). -/
structure RawDataset where
  id : Int
  kind : String
  database_id : Int
  table_name : String
  schema_ : String
deriving DecidableEq, Repr

/-- A listing entry kept by `get_datasets_from_superset` (utils.py
lines 39-42): the dataset id and its schema.table key. -/
structure ListedDataset where
  id : Int
  key : String
deriving DecidableEq, Repr

/-- A fetch request sent to the listing endpoint: the page number and page
size serialized into the q payload (utils.py lines 16-21). -/
structure FetchReq where
  page : Nat
  page_size : Nat
deriving DecidableEq, Repr

/-- The filter of utils.py lines 30-31: keep physical datasets, and when a
database id is given keep only datasets of that database. -/
def selectRaw (superset_db_id : Option Int) (r : RawDataset) : Bool :=
  r.kind == "physical" && (superset_db_id.isNone || superset_db_id == some r.database_id)

/-- The IdentityKey of a listed dataset (utils.py line 37). -/
def rawKey (r : RawDataset) : String :=
  r.schema_ ++ "." ++ r.table_name

/-- The per-page loop body of `get_datasets_from_superset` (utils.py
lines 26-52): fold the page's results into the accumulated datasets and
key set (the key set is embedded as the list of keys in insertion order),
failing on a duplicate key. -/
def pageStep (superset_db_id : Option Int)
    (acc : Except BuildError (List ListedDataset × List String))
    (r : RawDataset) : Except BuildError (List ListedDataset × List String) := do
  let (ds, ks) ← acc
  if selectRaw superset_db_id r then
    let dataset_key := rawKey r
    if dataset_key ∈ ks then
      throw (BuildError.DuplicateKey dataset_key)
    else
      pure (ds ++ [{ id := r.id, key := dataset_key }], ks ++ [dataset_key])
  else
    pure (ds, ks)

def processPage (superset_db_id : Option Int) (result : List RawDataset)
    (datasets : List ListedDataset) (keys : List String) :
    Except BuildError (List ListedDataset × List String) :=
  result.foldl (pageStep superset_db_id) (pure (datasets, keys))

/-- The while loop of `get_datasets_from_superset` (utils.py lines 13-55),
parameterized by the listing endpoint `pages` (mapping a page number and a
page size to the result list).  The loop records every fetch request it
issues; it stops when a page comes back empty, and otherwise processes the
page and advances the page number.  The fuel argument only bounds the
recursion: `none` means the loop did not terminate within the given fuel. -/
def getDatasetsLoop (pages : Nat → Nat → List RawDataset)
    (superset_db_id : Option Int) :
    Nat → Nat → List FetchReq → List ListedDataset → List String →
    Option (Except BuildError (List FetchReq × List ListedDataset))
  | 0, _, _, _, _ => none
  | fuel + 1, page_number, reqs, datasets, keys =>
    let result := pages page_number 100
    let reqs := reqs ++ [{ page := page_number, page_size := 100 }]
    if result.isEmpty then
      some (.ok (reqs, datasets))
    else
      match processPage superset_db_id result datasets keys with
      | .error e => some (.error e)
      | .ok (ds, ks) => getDatasetsLoop pages superset_db_id fuel (page_number + 1) reqs ds ks

/-- Embedding of `get_datasets_from_superset` (utils.py lines 7-60): run
the paging loop from page 0 with empty accumulators, returning the requests
issued together with the collected datasets. -/
def get_datasets_from_superset (pages : Nat → Nat → List RawDataset)
    (superset_db_id : Option Int) (fuel : Nat) :
    Option (Except BuildError (List FetchReq × List ListedDataset)) :=
  getDatasetsLoop pages superset_db_id fuel 0 [] [] []

/- ### Reconciler phase 2 (`main`, push_descriptions.py lines 216-228) -/

/-- Python exceptions reaching the per-dataset boundary of main's loop.
`requests.HTTPError` (raised by the client on a bad HTTP status) is the
only class named in the except clause on line 226; every other exception
class (for example a KeyError from a malformed response body, or a
connection error) is collected under `otherError`. -/
inductive PyError where
  | httpError (msg : String)
  | otherError (msg : String)
deriving DecidableEq, Repr

/-- The observable outcome of one iteration of the loop: either the
dataset's cycle completed, or an HTTPError was caught and logged together
with the dataset's id (lines 226-228). -/
inductive Outcome where
  | completed (dataset_id : Int)
  | loggedFailure (dataset_id : Int)
deriving DecidableEq, Repr

/-- The loop of `main` over the matched datasets (lines 216-228): run each
dataset's cycle inside the try block; on success or on a caught HTTPError
record the outcome and continue with the next dataset; any other exception
propagates out of the loop and aborts the run (the except clause on
line 226 names only HTTPError). -/
def process_matched_datasets (cycle : ListedDataset → Except PyError Unit) :
    List ListedDataset → Except PyError (List Outcome)
  | [] => .ok []
  | d :: rest =>
    match cycle d with
    | .ok _ => do
      let os ← process_matched_datasets cycle rest
      pure (Outcome.completed d.id :: os)
    | .error (PyError.httpError _) => do
      let os ← process_matched_datasets cycle rest
      pure (Outcome.loggedFailure d.id :: os)
    | .error e => .error e

/-- The network boundary of one dataset's cycle: the result of the refresh
request (line 19), of the detail fetch (lines 25-31, giving the dataset
with columns, description and owners filled in), and of the PUT update
(line 146).  Each may raise. -/
structure CatalogOracle where
  refreshResult : Int → Except PyError Unit
  detailResult : ListedDataset → Except PyError SstDataset
  putResult : Int → Except PyError Unit

/-- The body of the try block of main's loop (lines 220-225): optional
column refresh, detail fetch (`add_superset_columns`), merge, and
`put_descriptions_to_superset`, whose PUT request — issued only when the
diff gate fires — may itself raise. -/
def datasetCycle (oracle : CatalogOracle) (superset_refresh_columns : Bool)
    (tables : List (String × ModelNode)) (d : ListedDataset) :
    Except PyError Unit := do
  if superset_refresh_columns then
    oracle.refreshResult d.id
  let detail ← oracle.detailResult d
  let merged := merge_columns_info detail tables
  if put_descriptions_to_superset merged ≠ [] then
    oracle.putResult d.id
  else
    pure ()

/- ### One reconciliation step against catalog state (claim C1)

The Update endpoint is external to this repository; its effect on catalog
state is modelled from the interface contract (spec section 6): the PUT
sets the dataset description, updates the description of each existing
column matched by id from the payload (override_columns=false, so columns
absent from the payload keep their state, and a column's id, name and
expression are never changed by a description update), and sets the owner
list. -/

/-- Model of the catalog applying the update payload to a dataset's
columns: each column takes the description of the first payload entry with
its id, and is left unchanged when no payload entry matches. -/
def applyUpdateColumns (cols : List SstColumn) (payload : List ColumnOut) :
    List SstColumn :=
  cols.map (fun c =>
    match payload.find? (fun n => n.id == c.id) with
    | some n => { c with description := n.description }
    | none => c)

/-- Model of the catalog applying the PUT update issued for a merged
dataset (push_descriptions.py line 146, payload built on line 145). -/
def applyUpdate (ds : SstDataset) (m : MergedDataset) : SstDataset :=
  { ds with
    description := m.description_new
    columns := applyUpdateColumns ds.columns m.columns_new
    owners := m.owners_new.map (fun i => { id := i }) }

/-- One reconciliation step for one dataset: merge against the manifest
index, run the diff gate, and when it fires apply the write to the catalog
state; returns the API calls issued and the resulting catalog state. -/
def process_dataset (tables : List (String × ModelNode)) (ds : SstDataset) :
    List ApiCall × SstDataset :=
  let m := merge_columns_info ds tables
  let calls := put_descriptions_to_superset m
  if calls = [] then (calls, ds) else (calls, applyUpdate ds m)

/- ### Sorting lemmas for the diff gate -/

/-- Stable insertion into a list of pairs ordered by first component; the
image of `insertById` under a projection that keeps the id. -/
def insertByFst {α : Type} (p : Int × α) : List (Int × α) → List (Int × α)
  | [] => [p]
  | q :: l => if p.1 ≤ q.1 then p :: q :: l else q :: insertByFst p l

/-- Stable insertion sort of pairs by first component. -/
def sortByFst {α : Type} : List (Int × α) → List (Int × α)
  | [] => []
  | p :: l => insertByFst p (sortByFst l)

/-- The specification's column comparison: the two lists, projected to
their id and description payload and sorted by id, are equal. -/
def specColumnsEqual (lst1 lst2 : List ColumnOut) : Prop :=
  sortByFst (lst1.map (fun c => (c.id, c.description)))
    = sortByFst (lst2.map (fun c => (c.id, c.description)))

instance (lst1 lst2 : List ColumnOut) : Decidable (specColumnsEqual lst1 lst2) := by
  unfold specColumnsEqual; infer_instance

theorem map_insertById {α : Type} (f : ColumnOut → α) (c : ColumnOut)
    (l : List ColumnOut) :
    (insertById c l).map (fun x => (x.id, f x))
      = insertByFst (c.id, f c) (l.map (fun x => (x.id, f x))) := by
  induction l with
  | nil => rfl
  | cons d t ih =>
    simp only [insertById, insertByFst]
    by_cases h : c.id ≤ d.id
    · simp [h]
    · simp [h, ih]

theorem map_sortById {α : Type} (f : ColumnOut → α) (l : List ColumnOut) :
    (sortById l).map (fun x => (x.id, f x))
      = sortByFst (l.map (fun x => (x.id, f x))) := by
  induction l with
  | nil => rfl
  | cons c t ih => simp [sortById, sortByFst, map_insertById, ih]

theorem eq_of_proj_eq : ∀ {l1 l2 : List ColumnOut},
    l1.map (fun c => (c.id, c.description))
      = l2.map (fun c => (c.id, c.description)) →
    l1.map (fun c => (c.id, c.column_name))
      = l2.map (fun c => (c.id, c.column_name)) →
    l1 = l2
  | [], [], _, _ => rfl
  | a :: t1, b :: t2, h1, h2 => by
    simp only [List.map_cons, List.cons.injEq, Prod.mk.injEq] at h1 h2
    obtain ⟨⟨hid, hdesc⟩, ht1⟩ := h1
    obtain ⟨⟨_, hname⟩, ht2⟩ := h2
    have hab : a = b := by cases a; cases b; simp_all
    rw [hab, eq_of_proj_eq ht1 ht2]
  | [], _ :: _, h1, _ => by simp at h1
  | _ :: _, [], h1, _ => by simp at h1

/-- When the two lists agree on ids and names position by position, the
code's comparison of full sorted records coincides with the spec's
comparison of sorted id and description payloads. -/
theorem check_iff_spec (l1 l2 : List ColumnOut)
    (hskel : l1.map (fun c => (c.id, c.column_name))
      = l2.map (fun c => (c.id, c.column_name))) :
    (check_columns_equal l1 l2 ↔ specColumnsEqual l1 l2) := by
  unfold check_columns_equal specColumnsEqual
  constructor
  · intro h
    rw [← map_sortById, ← map_sortById, h]
  · intro h
    have hd : (sortById l1).map (fun c => (c.id, c.description))
        = (sortById l2).map (fun c => (c.id, c.description)) := by
      rw [map_sortById, map_sortById]; exact h
    have hn : (sortById l1).map (fun c => (c.id, c.column_name))
        = (sortById l2).map (fun c => (c.id, c.column_name)) := by
      rw [map_sortById, map_sortById, hskel]
    exact eq_of_proj_eq hd hn

theorem insertById_perm (c : ColumnOut) (l : List ColumnOut) :
    List.Perm (insertById c l) (c :: l) := by
  induction l with
  | nil => exact List.Perm.refl _
  | cons d t ih =>
    simp only [insertById]
    by_cases h : c.id ≤ d.id
    · simp [h]
    · rw [if_neg h]
      exact (ih.cons d).trans (List.Perm.swap c d t)

theorem sortById_perm (l : List ColumnOut) : List.Perm (sortById l) l := by
  induction l with
  | nil => exact List.Perm.refl _
  | cons c t ih => exact (insertById_perm c (sortById t)).trans (ih.cons c)

theorem pairwise_insertById {c : ColumnOut} {l : List ColumnOut}
    (h : l.Pairwise (fun a b => a.id ≤ b.id)) :
    (insertById c l).Pairwise (fun a b => a.id ≤ b.id) := by
  induction l with
  | nil => simp [insertById]
  | cons d t ih =>
    rcases List.pairwise_cons.mp h with ⟨hd, ht⟩
    simp only [insertById]
    by_cases hcd : c.id ≤ d.id
    · rw [if_pos hcd]
      refine List.pairwise_cons.mpr ⟨?_, h⟩
      intro x hx
      rcases List.mem_cons.mp hx with hx | hx
      · rw [hx]; exact hcd
      · exact le_trans hcd (hd x hx)
    · rw [if_neg hcd]
      refine List.pairwise_cons.mpr ⟨?_, ih ht⟩
      intro x hx
      have hx' : x ∈ c :: t := (insertById_perm c t).mem_iff.mp hx
      rcases List.mem_cons.mp hx' with hx' | hx'
      · rw [hx']; exact le_of_not_le hcd
      · exact hd x hx'

theorem pairwise_sortById (l : List ColumnOut) :
    (sortById l).Pairwise (fun a b => a.id ≤ b.id) := by
  induction l with
  | nil => simp [sortById]
  | cons c t ih => exact pairwise_insertById ih

/-- A stable sort's output is uniquely determined by the multiset of its
input when the ids are pairwise distinct: sorting two permuted lists with
duplicate-free ids yields the same list. -/
theorem sortById_eq_of_perm {l1 l2 : List ColumnOut} (hp : List.Perm l1 l2)
    (hnd : (l1.map (fun c => c.id)).Nodup) : sortById l1 = sortById l2 := by
  have hp' : List.Perm (sortById l1) (sortById l2) :=
    (sortById_perm l1).trans (hp.trans (sortById_perm l2).symm)
  have hnd1 : ((sortById l1).map (fun c => c.id)).Nodup :=
    (List.Perm.nodup_iff ((sortById_perm l1).map _)).mpr hnd
  have hnd2 : ((sortById l2).map (fun c => c.id)).Nodup :=
    (List.Perm.nodup_iff (hp'.map _)).mp hnd1
  have hlt1 : (sortById l1).Pairwise (fun a b => a.id < b.id) := by
    have hne : (sortById l1).Pairwise (fun a b => a.id ≠ b.id) :=
      List.pairwise_map.mp hnd1
    exact ((pairwise_sortById l1).and hne).imp fun h => lt_of_le_of_ne h.1 h.2
  have hlt2 : (sortById l2).Pairwise (fun a b => a.id < b.id) := by
    have hne : (sortById l2).Pairwise (fun a b => a.id ≠ b.id) :=
      List.pairwise_map.mp hnd2
    exact ((pairwise_sortById l2).and hne).imp fun h => lt_of_le_of_ne h.1 h.2
  haveI : IsAntisymm ColumnOut (fun a b => a.id < b.id) :=
    ⟨fun a b h1 h2 => absurd (h1.trans h2) (lt_irrefl _)⟩
  exact List.eq_of_perm_of_sorted hp' hlt1 hlt2

/- ### Concrete fixtures used by the witnesses (the scenario of the spec:
manifest table sales.orders with column total, catalog dataset 7 with
column 42) -/

/-- Manifest columns of the sample table. -/
def exManifestColumns : List (String × ColumnMeta) :=
  [("total", { description := "Order total" })]

/-- The sample manifest table sales.orders. -/
def exTable : ModelNode :=
  { schema_ := "sales", name := "orders", database := "db1"
    description := some "The orders table", columns := exManifestColumns }

/-- The sample manifest index. -/
def exTables : List (String × ModelNode) := [("sales.orders", exTable)]

/-- The sample catalog column id 42, name total, empty expression. -/
def exColumn : SstColumn :=
  { id := 42, column_name := "total", description := some "", expression := none }

/-- The sample catalog dataset id 7, key sales.orders. -/
def exDataset : SstDataset :=
  { id := 7, key := "sales.orders", columns := [exColumn]
    description := some "", owners := [{ id := 3 }] }

/- ### Claim theorems: merger -/

/-- C4. Merger dataset-level description precedence: for every catalog
dataset, if its IdentityKey has no match in the manifest index, or the
matched manifest table's description is absent, the merged candidate's
dataset description equals the catalog's current description; otherwise it
equals the translated manifest description. -/
theorem C4_dataset_description_precedence (ds : SstDataset)
    (tables : List (String × ModelNode)) :
    (merge_columns_info ds tables).description_new =
      match tables.lookup ds.key with
      | none => ds.description
      | some t =>
        match t.description with
        | none => ds.description
        | some d => some (convert_markdown_to_plain_text d) := by
  simp only [merge_columns_info, dbtDescriptionOf]
  cases h : tables.lookup ds.key with
  | none => rfl
  | some t => cases t.description <;> rfl

/-- C10. Merge preserves column identity and shape: the merged candidate's
columns_new list has exactly the same length and order as the dataset's
current column list, and at each position the id and column_name are copied
verbatim from the corresponding current column. -/
theorem C10_merge_preserves_identity_and_shape (ds : SstDataset)
    (tables : List (String × ModelNode)) :
    (merge_columns_info ds tables).columns_new.length = ds.columns.length ∧
    ∀ i (h : i < ds.columns.length),
      ((merge_columns_info ds tables).columns_new.get
          ⟨i, by simpa [merge_columns_info] using h⟩).id = (ds.columns.get ⟨i, h⟩).id ∧
      ((merge_columns_info ds tables).columns_new.get
          ⟨i, by simpa [merge_columns_info] using h⟩).column_name
        = (ds.columns.get ⟨i, h⟩).column_name := by
  refine ⟨by simp [merge_columns_info], ?_⟩
  intro i h
  simp [merge_columns_info, mergeColumn]

/-- Witness for C10 at the sample dataset and manifest. -/
theorem C10_witness :
    (merge_columns_info exDataset exTables).columns_new.length
        = exDataset.columns.length ∧
    ((merge_columns_info exDataset exTables).columns_new.get
        ⟨0, by decide⟩).id = 42 := by
  refine ⟨(C10_merge_preserves_identity_and_shape exDataset exTables).1, ?_⟩
  have h := ((C10_merge_preserves_identity_and_shape exDataset exTables).2 0
    (by decide)).1
  simpa using h

/-- C3. Merger column-level precedence: a catalog column whose name exists
in the matched manifest table and whose expression is null or empty takes
the translated manifest column description; in every other case the merged
column keeps the current catalog description unchanged. -/
theorem C3_column_precedence (ds : SstDataset)
    (tables : List (String × ModelNode)) (i : Nat) (h : i < ds.columns.length) :
    (∀ meta,
      (dbtColumnsOf tables ds.key).lookup (ds.columns.get ⟨i, h⟩).column_name
          = some meta →
      ((ds.columns.get ⟨i, h⟩).expression = none ∨
        (ds.columns.get ⟨i, h⟩).expression = some "") →
      ((merge_columns_info ds tables).columns_new.get
          ⟨i, by simpa [merge_columns_info] using h⟩).description
        = some (convert_markdown_to_plain_text meta.description)) ∧
    (((dbtColumnsOf tables ds.key).lookup (ds.columns.get ⟨i, h⟩).column_name
          = none ∨
      ((ds.columns.get ⟨i, h⟩).expression ≠ none ∧
        (ds.columns.get ⟨i, h⟩).expression ≠ some "")) →
      ((merge_columns_info ds tables).columns_new.get
          ⟨i, by simpa [merge_columns_info] using h⟩).description
        = (ds.columns.get ⟨i, h⟩).description) := by
  constructor
  · intro meta hlk hexpr
    simp only [List.get_eq_getElem] at hlk hexpr
    simp only [merge_columns_info, List.get_eq_getElem, List.getElem_map,
      mergeColumn]
    rw [hlk]
    exact if_pos hexpr
  · intro hcase
    simp only [List.get_eq_getElem] at hcase
    simp only [merge_columns_info, List.get_eq_getElem, List.getElem_map,
      mergeColumn]
    rcases hcase with hnone | ⟨h1, h2⟩
    · rw [hnone]
    · cases hlk : List.lookup ds.columns[i].column_name
          (dbtColumnsOf tables ds.key) with
      | none => rfl
      | some meta =>
        refine if_neg ?_
        intro hor
        rcases hor with h' | h'
        · exact h1 h'
        · exact h2 h'

/-- Witness for C3 at the sample dataset: column total has an empty
expression and a manifest match, so its merged description is the
translated manifest text. -/
theorem C3_witness :
    ((merge_columns_info exDataset exTables).columns_new.get
        ⟨0, by decide⟩).description = some "Order total" := by
  have h := (C3_column_precedence exDataset exTables 0 (by decide)).1
    { description := "Order total" } (by decide) (by decide)
  simpa using h

/- ### Claim theorem: description translator -/

/-- C5. The claim states that fenced and inline code regions are stripped
entirely, so that no code content appears in the output.  The code comment
on line 45 documents the same intent, but the substitution on line 47
spells the closing delimiter with a stray space before the angle bracket,
which the renderer never produces, so inline code survives every stage and
its content leaks verbatim into the flat description: on the input
consisting of the single inline code span with content secret, the output
is exactly that content. -/
theorem C5_inline_code_content_leaks :
    convert_markdown_to_plain_text "`secret`" = "secret" := by decide

/- ### Claim theorems: diff gate -/

/-- C2. DiffGate write condition: for a merged candidate produced from a
catalog dataset, an Update call is issued if and only if the candidate
dataset description differs from the current one, or the two column lists
differ when compared as id-keyed sets with id and description payload
(sorted by id); when the condition is false, no API call of any kind is
made for that dataset. -/
theorem C2_diffgate_write_condition (ds : SstDataset)
    (tables : List (String × ModelNode)) :
    put_descriptions_to_superset (merge_columns_info ds tables) =
      if (merge_columns_info ds tables).description_new ≠ ds.description ∨
          ¬ specColumnsEqual (merge_columns_info ds tables).columns_new
              (columnsOld ds) then
        [ApiCall.update ds.id (merge_columns_info ds tables).description_new
          (merge_columns_info ds tables).columns_new
          (merge_columns_info ds tables).owners_new]
      else [] := by
  have hskel : (merge_columns_info ds tables).columns_new.map
        (fun c => (c.id, c.column_name))
      = (columnsOld ds).map (fun c => (c.id, c.column_name)) := by
    simp only [merge_columns_info, columnsOld, List.map_map]
    rfl
  have hiff := check_iff_spec _ _ hskel
  show (if (merge_columns_info ds tables).description_new ≠ ds.description ∨
      ¬ check_columns_equal (merge_columns_info ds tables).columns_new
        (columnsOld ds) then _ else _) = _
  exact if_congr (or_congr Iff.rfl (not_congr hiff)) rfl rfl

/-- Current columns sharing id 1 with different descriptions (Superset
itself never produces duplicate column ids, but the comparison function is
defined on arbitrary lists). -/
def dupColA : SstColumn :=
  { id := 1, column_name := "x", description := some "a", expression := none }

/-- Second column with the same id as `dupColA` but another description. -/
def dupColB : SstColumn :=
  { id := 1, column_name := "x", description := some "b", expression := none }

/-- A merged candidate whose column payload lists the two descriptions in
the current order, so the diff gate sees no change. -/
def dupMerged : MergedDataset :=
  { base := { id := 5, key := "s.t", columns := [dupColA, dupColB]
              description := some "d", owners := [] }
    columns_new := [{ column_name := "x", id := 1, description := some "a" },
                    { column_name := "x", id := 1, description := some "b" }]
    description_new := some "d"
    owners_new := [] }

/-- The same candidate against the permuted current column list. -/
def dupMergedPerm : MergedDataset :=
  { dupMerged with base := { dupMerged.base with columns := [dupColB, dupColA] } }

/-- C9 counterexample: with duplicate column ids, Python's stable sort
keeps the input order of equal keys, so permuting the current column list
alone flips the diff gate from no-write to write — the claim as stated
(for every current column list) is false. -/
theorem C9_counterexample :
    List.Perm dupMerged.base.columns dupMergedPerm.base.columns ∧
    put_descriptions_to_superset dupMerged = [] ∧
    put_descriptions_to_superset dupMergedPerm ≠ [] := by
  refine ⟨?_, by decide, by decide⟩
  show List.Perm [dupColA, dupColB] [dupColB, dupColA]
  exact List.Perm.swap dupColB dupColA []

/-- C9 (amended). Diff order-independence for duplicate-free column ids:
when the current column list's ids are pairwise distinct — which the
catalog guarantees — applying any permutation to the current column list
(without changing any column's content) does not change the diff gate's
decision; in particular, reordering alone never turns a no-write decision
into a write. -/
theorem C9_order_independence_for_distinct_ids (m : MergedDataset)
    (cols' : List SstColumn)
    (hperm : List.Perm m.base.columns cols')
    (hnd : (m.base.columns.map (fun c => c.id)).Nodup) :
    put_descriptions_to_superset { m with base := { m.base with columns := cols' } }
      = put_descriptions_to_superset m := by
  have hpermOld : List.Perm (columnsOld { m.base with columns := cols' })
      (columnsOld m.base) := by
    simpa [columnsOld] using (hperm.map
      (fun col => ({ column_name := col.column_name, id := col.id
                     description := col.description } : ColumnOut))).symm
  have hndOld : ((columnsOld { m.base with columns := cols' }).map
      (fun c => c.id)).Nodup := by
    have h1 : (cols'.map (fun c => c.id)).Nodup :=
      (List.Perm.nodup_iff (hperm.map (fun c => c.id))).mp hnd
    simpa [columnsOld, List.map_map] using h1
  have hsort : sortById (columnsOld { m.base with columns := cols' })
      = sortById (columnsOld m.base) :=
    sortById_eq_of_perm hpermOld hndOld
  simp only [put_descriptions_to_superset, check_columns_equal, hsort]

/-- A merged candidate over two distinct-id columns, used by the C9
witness. -/
def exM9 : MergedDataset :=
  { base := { id := 9, key := "s.t"
              columns := [{ id := 1, column_name := "x", description := some "a"
                            expression := none },
                          { id := 2, column_name := "y", description := some "b"
                            expression := none }]
              description := some "d", owners := [] }
    columns_new := [{ column_name := "x", id := 1, description := some "a" },
                    { column_name := "y", id := 2, description := some "b" }]
    description_new := some "d"
    owners_new := [] }

/-- Witness for the amended C9: swapping the two distinct-id columns leaves
the gate's decision unchanged. -/
theorem C9_witness :
    put_descriptions_to_superset
        { exM9 with base :=
          { exM9.base with
            columns := [{ id := 2, column_name := "y", description := some "b"
                          expression := none },
                        { id := 1, column_name := "x", description := some "a"
                          expression := none }] } }
      = put_descriptions_to_superset exM9 := by
  refine C9_order_independence_for_distinct_ids exM9 _ ?_ (by decide)
  show List.Perm [_, _] [_, _]
  exact List.Perm.swap _ _ []

/- ### Claim theorems: fault isolation (C8) -/

/-- A non-HTTP failure at the detail-fetch boundary (for example a
KeyError raised while reading the response body). -/
def failingOracle : CatalogOracle :=
  { refreshResult := fun _ => .ok ()
    detailResult := fun _ => .error (PyError.otherError "KeyError")
    putResult := fun _ => .ok () }

/-- C8 counterexample: the except clause of main's loop names only
HTTPError, so a non-HTTP exception raised inside the first dataset's cycle
aborts the whole run — the second dataset is never processed and no outcome
list is produced, contradicting the claim that any per-dataset failure is
caught and the loop continues. -/
theorem C8_counterexample :
    process_matched_datasets (datasetCycle failingOracle false [])
        [{ id := 1, key := "a.b" }, { id := 2, key := "a.c" }]
      = .error (PyError.otherError "KeyError") ∧
    ∀ outcomes : List Outcome,
      process_matched_datasets (datasetCycle failingOracle false [])
          [{ id := 1, key := "a.b" }, { id := 2, key := "a.c" }]
        ≠ .ok outcomes := by
  refine ⟨rfl, ?_⟩
  intro outcomes h
  rw [show process_matched_datasets (datasetCycle failingOracle false [])
      [{ id := 1, key := "a.b" }, { id := 2, key := "a.c" }]
      = .error (PyError.otherError "KeyError") from rfl] at h
  exact Except.noConfusion h

/-- A cycle result the loop's except clause can absorb: success, or an
HTTPError. -/
def caughtByLoop : Except PyError Unit → Bool
  | .ok _ => true
  | .error (PyError.httpError _) => true
  | .error (PyError.otherError _) => false

/-- C8 (amended). Per-dataset fault isolation for HTTP failures: when every
failure raised during a dataset's refresh/fetch/merge/write cycle is an
HTTPError (the class the except clause on line 226 names), it is caught
within the per-dataset boundary, logged together with that dataset's id,
and the loop continues to the next dataset — no such per-dataset failure
aborts the run.  A non-HTTP exception, however, propagates (see the
counterexample). -/
theorem C8_http_failures_are_isolated
    (cycle : ListedDataset → Except PyError Unit)
    (datasets : List ListedDataset)
    (h : ∀ d ∈ datasets, caughtByLoop (cycle d) = true) :
    process_matched_datasets cycle datasets
      = .ok (datasets.map (fun d =>
          match cycle d with
          | .ok _ => Outcome.completed d.id
          | .error _ => Outcome.loggedFailure d.id)) := by
  induction datasets with
  | nil => rfl
  | cons d rest ih =>
    have hd := h d (List.mem_cons_self d rest)
    have hrest := fun x hx => h x (List.mem_cons_of_mem d hx)
    cases hc : cycle d with
    | ok u =>
      cases u
      simp only [process_matched_datasets, hc, List.map_cons, ih hrest]
      rfl
    | error e =>
      cases e with
      | httpError msg =>
        simp only [process_matched_datasets, hc, List.map_cons, ih hrest]
        rfl
      | otherError msg =>
        rw [hc] at hd
        simp [caughtByLoop] at hd

/-- A cycle oracle failing with an HTTPError on dataset 1 and succeeding on
dataset 2. -/
def exCycle : ListedDataset → Except PyError Unit :=
  fun d => if d.id = 1 then .error (PyError.httpError "500") else .ok ()

/-- Witness for the amended C8: dataset 1's HTTP failure is logged with its
id and dataset 2 still completes. -/
theorem C8_witness :
    process_matched_datasets exCycle
        [{ id := 1, key := "a.b" }, { id := 2, key := "a.c" }]
      = .ok [Outcome.loggedFailure 1, Outcome.completed 2] := by
  have h := C8_http_failures_are_isolated exCycle
    [{ id := 1, key := "a.b" }, { id := 2, key := "a.c" }] (by decide)
  simpa [exCycle] using h

/- ### Claim C1: idempotence of one reconciliation step -/

theorem process_dataset_fst (tables : List (String × ModelNode))
    (ds : SstDataset) :
    (process_dataset tables ds).1
      = put_descriptions_to_superset (merge_columns_info ds tables) := by
  simp only [process_dataset]
  split <;> rfl

/-- In a payload whose ids are the (duplicate-free) ids of the columns, in
order, the first payload entry matching a column's id is that column's own
entry. -/
theorem find_payload_of_nodup (g : SstColumn → ColumnOut)
    (hg : ∀ c, (g c).id = c.id) :
    ∀ cols : List SstColumn, (cols.map (fun c => c.id)).Nodup →
      ∀ x ∈ cols, List.find? (fun n => n.id == x.id) (cols.map g) = some (g x)
  | [], _, x, hx => absurd hx (List.not_mem_nil x)
  | c :: t, hnd, x, hx => by
    have hhead : c.id ∉ t.map (fun y => y.id) :=
      (List.nodup_cons.mp (by simpa using hnd)).1
    have htail : (t.map (fun y => y.id)).Nodup :=
      (List.nodup_cons.mp (by simpa using hnd)).2
    rcases List.mem_cons.mp hx with rfl | hx2
    · rw [List.map_cons]
      apply List.find?_cons_of_pos
      simp [hg]
    · have hne : c.id ≠ x.id := by
        intro heq
        exact hhead (heq ▸ List.mem_map_of_mem (fun y => y.id) hx2)
      rw [List.map_cons, List.find?_cons_of_neg,
        find_payload_of_nodup g hg t htail x hx2]
      simp [hg, hne]

/-- Updating a dataset's columns from a payload whose ids are the columns'
own ids, in order and duplicate-free, rewrites each column's description
from its own payload entry. -/
theorem applyUpdateColumns_map (g : SstColumn → ColumnOut)
    (hg : ∀ c, (g c).id = c.id) (cols : List SstColumn)
    (hnd : (cols.map (fun c => c.id)).Nodup) :
    applyUpdateColumns cols (cols.map g)
      = cols.map (fun c => { c with description := (g c).description }) := by
  unfold applyUpdateColumns
  apply List.map_congr_left
  intro x hx
  rw [find_payload_of_nodup g hg cols hnd x hx]

/-- Merging a column whose description was already rewritten to its merged
description yields the same merged column again: the override branch
recomputes the same translation, and the keep branch keeps the rewritten
description. -/
theorem mergeColumn_update (dbt : List (String × ColumnMeta)) (c : SstColumn) :
    mergeColumn dbt { c with description := (mergeColumn dbt c).description }
      = mergeColumn dbt c := by
  simp only [mergeColumn]
  cases hlk : dbt.lookup c.column_name with
  | none => simp [hlk]
  | some meta =>
    by_cases he : c.expression = none ∨ c.expression = some ""
    · simp [hlk, he]
    · simp [hlk, he]

/-- After the catalog applied the update written for a dataset, merging the
updated state again produces a candidate identical to the state: the new
column payload equals the current column projection, and the new
description equals the current description. -/
theorem applyUpdate_fixpoint (tables : List (String × ModelNode))
    (ds : SstDataset) (hnd : (ds.columns.map (fun c => c.id)).Nodup) :
    (merge_columns_info (applyUpdate ds (merge_columns_info ds tables))
        tables).columns_new
      = columnsOld (applyUpdate ds (merge_columns_info ds tables)) ∧
    (merge_columns_info (applyUpdate ds (merge_columns_info ds tables))
        tables).description_new
      = (applyUpdate ds (merge_columns_info ds tables)).description := by
  have hkey : (applyUpdate ds (merge_columns_info ds tables)).key = ds.key := rfl
  have hcols : (applyUpdate ds (merge_columns_info ds tables)).columns
      = ds.columns.map (fun c =>
          { c with description :=
              (mergeColumn (dbtColumnsOf tables ds.key) c).description }) := by
    show applyUpdateColumns ds.columns
        (ds.columns.map (mergeColumn (dbtColumnsOf tables ds.key))) = _
    exact applyUpdateColumns_map _ (fun _ => rfl) ds.columns hnd
  constructor
  · have lhs_eq : (merge_columns_info
        (applyUpdate ds (merge_columns_info ds tables)) tables).columns_new
        = ds.columns.map (mergeColumn (dbtColumnsOf tables ds.key)) := by
      show (applyUpdate ds (merge_columns_info ds tables)).columns.map
          (mergeColumn (dbtColumnsOf tables ds.key)) = _
      rw [hcols, List.map_map]
      apply List.map_congr_left
      intro c _
      exact mergeColumn_update (dbtColumnsOf tables ds.key) c
    have rhs_eq : columnsOld (applyUpdate ds (merge_columns_info ds tables))
        = ds.columns.map (mergeColumn (dbtColumnsOf tables ds.key)) := by
      show (applyUpdate ds (merge_columns_info ds tables)).columns.map
          (fun col => ({ column_name := col.column_name, id := col.id
                         description := col.description } : ColumnOut)) = _
      rw [hcols, List.map_map]
      apply List.map_congr_left
      intro c _
      rfl
    rw [lhs_eq, rhs_eq]
  · have hdd : (applyUpdate ds (merge_columns_info ds tables)).description
        = (match dbtDescriptionOf tables ds.key with
           | none => ds.description
           | some d => some (convert_markdown_to_plain_text d)) := rfl
    show (match dbtDescriptionOf tables ds.key with
      | none => (applyUpdate ds (merge_columns_info ds tables)).description
      | some d => some (convert_markdown_to_plain_text d))
      = (applyUpdate ds (merge_columns_info ds tables)).description
    rw [hdd]
    cases dbtDescriptionOf tables ds.key <;> rfl

/-- C1. Idempotence of reconciliation: for every manifest index and catalog
dataset state (with the catalog's duplicate-free column ids), running the
refresh/fetch/merge/diff/write step twice with no intervening manifest or
catalog change issues zero write calls on the second run: the merged
candidate produced on the second run equals the state the first run wrote,
so the diff gate returns false. -/
theorem C1_idempotence (tables : List (String × ModelNode)) (ds : SstDataset)
    (hnd : (ds.columns.map (fun c => c.id)).Nodup) :
    (process_dataset tables (process_dataset tables ds).2).1 = [] := by
  rw [process_dataset_fst]
  by_cases hc : put_descriptions_to_superset (merge_columns_info ds tables) = []
  · have h2 : (process_dataset tables ds).2 = ds := by
      simp [process_dataset, hc]
    rw [h2]
    exact hc
  · have h2 : (process_dataset tables ds).2
        = applyUpdate ds (merge_columns_info ds tables) := by
      simp [process_dataset, hc]
    rw [h2]
    obtain ⟨hcn, hdesc⟩ := applyUpdate_fixpoint tables ds hnd
    have hcond : ¬ ((merge_columns_info
          (applyUpdate ds (merge_columns_info ds tables)) tables).description_new
        ≠ (merge_columns_info
          (applyUpdate ds (merge_columns_info ds tables)) tables).base.description ∨
        ¬ check_columns_equal
          (merge_columns_info
            (applyUpdate ds (merge_columns_info ds tables)) tables).columns_new
          (columnsOld (merge_columns_info
            (applyUpdate ds (merge_columns_info ds tables)) tables).base)) := by
      rintro (hne | hnc)
      · exact hne hdesc
      · refine hnc ?_
        unfold check_columns_equal
        rw [hcn]
        rfl
    simp only [put_descriptions_to_superset, if_neg hcond]

/-- Witness for C1 at the sample dataset and manifest: the first step
writes (the sample descriptions differ), the second issues no call. -/
theorem C1_witness :
    (process_dataset exTables (process_dataset exTables exDataset).2).1 = [] :=
  C1_idempotence exTables exDataset (by decide)

/- ### Claims C6 and C7: index building and pagination -/

/-- The keys of the entries of a page that pass the physical/database
filter, in page order. -/
def pageKeys (superset_db_id : Option Int) (result : List RawDataset) :
    List String :=
  (result.filter (selectRaw superset_db_id)).map rawKey

/-- The listed entries of a page that pass the filter, in page order. -/
def pageEntries (superset_db_id : Option Int) (result : List RawDataset) :
    List ListedDataset :=
  (result.filter (selectRaw superset_db_id)).map
    (fun r => { id := r.id, key := rawKey r })

theorem foldl_pageStep_error (superset_db_id : Option Int) (e : BuildError) :
    ∀ result : List RawDataset,
      result.foldl (pageStep superset_db_id) (.error e) = .error e
  | [] => rfl
  | _ :: rest => foldl_pageStep_error superset_db_id e rest

/-- One page of processing either collects exactly the filtered entries
(when the keys stay duplicate-free) or fails with a DuplicateKey. -/
theorem processPage_spec (superset_db_id : Option Int) :
    ∀ (result : List RawDataset) (ds : List ListedDataset) (ks : List String),
      ks.Nodup →
      (((ks ++ pageKeys superset_db_id result).Nodup →
        processPage superset_db_id result ds ks
          = .ok (ds ++ pageEntries superset_db_id result,
                 ks ++ pageKeys superset_db_id result)) ∧
      (¬ (ks ++ pageKeys superset_db_id result).Nodup →
        ∃ k, processPage superset_db_id result ds ks
          = .error (BuildError.DuplicateKey k)))
  | [], ds, ks, hks => by
    constructor
    · intro _
      simp only [processPage, List.foldl_nil, pageKeys, pageEntries,
        List.filter_nil, List.map_nil, List.append_nil]
      rfl
    · intro hnd
      exact absurd (by simpa [pageKeys] using hks) hnd
  | r :: rest, ds, ks, hks => by
    by_cases hsel : selectRaw superset_db_id r
    · have hunf : processPage superset_db_id (r :: rest) ds ks
          = if rawKey r ∈ ks then
              rest.foldl (pageStep superset_db_id)
                (.error (BuildError.DuplicateKey (rawKey r)))
            else
              processPage superset_db_id rest
                (ds ++ [{ id := r.id, key := rawKey r }]) (ks ++ [rawKey r]) := by
        simp only [processPage, List.foldl_cons, pageStep, hsel]
        by_cases hmem : rawKey r ∈ ks
        · simp only [if_pos hmem, if_pos hmem]
          simp [hmem]
          rfl
        · simp [hmem]
      by_cases hmem : rawKey r ∈ ks
      · rw [hunf, if_pos hmem, foldl_pageStep_error]
        constructor
        · intro hnd
          exfalso
          have hdisj := (List.nodup_append.mp hnd).2.2
          exact hdisj hmem (by simp [pageKeys, hsel])
        · intro _
          exact ⟨rawKey r, rfl⟩
      · have hks' : (ks ++ [rawKey r]).Nodup := by
          rw [List.nodup_append]
          exact ⟨hks, List.nodup_singleton _, by
            intro a ha hb
            rw [List.mem_singleton.mp hb] at ha
            exact hmem ha⟩
        have ih := processPage_spec superset_db_id rest
          (ds ++ [{ id := r.id, key := rawKey r }]) (ks ++ [rawKey r]) hks'
        have hkeys : ks ++ pageKeys superset_db_id (r :: rest)
            = (ks ++ [rawKey r]) ++ pageKeys superset_db_id rest := by
          simp [pageKeys, hsel]
        have hentries : ds ++ pageEntries superset_db_id (r :: rest)
            = (ds ++ [{ id := r.id, key := rawKey r }])
              ++ pageEntries superset_db_id rest := by
          simp [pageEntries, hsel]
        rw [hunf, if_neg hmem, hkeys, hentries]
        exact ih
    · have hunf : processPage superset_db_id (r :: rest) ds ks
          = processPage superset_db_id rest ds ks := by
        simp only [processPage, List.foldl_cons, pageStep, hsel]
        simp
      have hkeys : pageKeys superset_db_id (r :: rest)
          = pageKeys superset_db_id rest := by
        simp [pageKeys, hsel]
      have hentries : pageEntries superset_db_id (r :: rest)
          = pageEntries superset_db_id rest := by
        simp [pageEntries, hsel]
      rw [hunf, hkeys, hentries]
      exact processPage_spec superset_db_id rest ds ks hks

/-- The filtered keys of the pages p0, p0+1, ..., p0+n-1, in order. -/
def catalogKeys (pages : Nat → Nat → List RawDataset)
    (superset_db_id : Option Int) : Nat → Nat → List String
  | _, 0 => []
  | p0, n + 1 =>
    pageKeys superset_db_id (pages p0 100)
      ++ catalogKeys pages superset_db_id (p0 + 1) n

/-- The filtered listing entries of the pages p0, ..., p0+n-1, in order. -/
def catalogEntries (pages : Nat → Nat → List RawDataset)
    (superset_db_id : Option Int) : Nat → Nat → List ListedDataset
  | _, 0 => []
  | p0, n + 1 =>
    pageEntries superset_db_id (pages p0 100)
      ++ catalogEntries pages superset_db_id (p0 + 1) n

/-- The fetch requests for pages p0, p0+1, ..., p0+n-1, each with page
size 100. -/
def fetchReqs : Nat → Nat → List FetchReq
  | _, 0 => []
  | p0, n + 1 => { page := p0, page_size := 100 } :: fetchReqs (p0 + 1) n

theorem fetchReqs_eq : ∀ (n p0 : Nat),
    fetchReqs p0 n
      = (List.range n).map (fun i => { page := p0 + i, page_size := 100 })
  | 0, _ => rfl
  | n + 1, p0 => by
    show { page := p0, page_size := 100 } :: fetchReqs (p0 + 1) n = _
    rw [List.range_succ_eq_map, List.map_cons, List.map_map,
      fetchReqs_eq n (p0 + 1)]
    have h0 : ({ page := p0 + 0, page_size := 100 } : FetchReq)
        = { page := p0, page_size := 100 } := by simp
    rw [h0]
    apply congrArg
    apply List.map_congr_left
    intro i _
    show ({ page := p0 + 1 + i, page_size := 100 } : FetchReq) = _
    simp only [Function.comp]
    have h1 : p0 + 1 + i = p0 + Nat.succ i := by omega
    rw [h1]

/-- The paging loop either collects, page by page, exactly the filtered
entries of the pages before the first empty page — requesting each of
those pages and the empty one, in order, with page size 100 — or fails
with a DuplicateKey when the accumulated keys contain a duplicate. -/
theorem getDatasetsLoop_spec (pages : Nat → Nat → List RawDataset)
    (superset_db_id : Option Int) :
    ∀ (n p0 fuel : Nat) (reqs : List FetchReq) (ds : List ListedDataset)
      (ks : List String),
      (∀ i, i < n → pages (p0 + i) 100 ≠ []) →
      pages (p0 + n) 100 = [] →
      n + 1 ≤ fuel →
      ks.Nodup →
      (((ks ++ catalogKeys pages superset_db_id p0 n).Nodup →
        getDatasetsLoop pages superset_db_id fuel p0 reqs ds ks
          = some (.ok (reqs ++ fetchReqs p0 (n + 1),
              ds ++ catalogEntries pages superset_db_id p0 n))) ∧
      (¬ (ks ++ catalogKeys pages superset_db_id p0 n).Nodup →
        ∃ k, getDatasetsLoop pages superset_db_id fuel p0 reqs ds ks
          = some (.error (BuildError.DuplicateKey k)))) := by
  intro n
  induction n with
  | zero =>
    intro p0 fuel reqs ds ks _ hemp hfuel hks
    obtain ⟨f, rfl⟩ : ∃ f, fuel = f + 1 := ⟨fuel - 1, by omega⟩
    rw [Nat.add_zero] at hemp
    constructor
    · intro _
      simp [getDatasetsLoop, hemp, catalogEntries, fetchReqs]
    · intro hnd
      exact absurd (by simpa [catalogKeys] using hks) hnd
  | succ n ih =>
    intro p0 fuel reqs ds ks hne hemp hfuel hks
    obtain ⟨f, rfl⟩ : ∃ f, fuel = f + 1 := ⟨fuel - 1, by omega⟩
    have hne0 : pages p0 100 ≠ [] := by
      have h := hne 0 (by omega)
      rwa [Nat.add_zero] at h
    have hpp := processPage_spec superset_db_id (pages p0 100) ds ks hks
    have hne' : ∀ i, i < n → pages (p0 + 1 + i) 100 ≠ [] := by
      intro i hi
      have h := hne (i + 1) (by omega)
      have heq : p0 + (i + 1) = p0 + 1 + i := by omega
      rwa [heq] at h
    have hemp' : pages (p0 + 1 + n) 100 = [] := by
      have heq : p0 + (n + 1) = p0 + 1 + n := by omega
      rwa [heq] at hemp
    have hunf : getDatasetsLoop pages superset_db_id (f + 1) p0 reqs ds ks
        = match processPage superset_db_id (pages p0 100) ds ks with
          | .error e => some (.error e)
          | .ok (ds', ks') =>
            getDatasetsLoop pages superset_db_id f (p0 + 1)
              (reqs ++ [{ page := p0, page_size := 100 }]) ds' ks' := by
      obtain ⟨a, l, hl⟩ : ∃ a l, pages p0 100 = a :: l := by
        cases hpp0 : pages p0 100 with
        | nil => exact absurd hpp0 hne0
        | cons a l => exact ⟨a, l, rfl⟩
      simp [getDatasetsLoop, hl]
    by_cases hnd0 : (ks ++ pageKeys superset_db_id (pages p0 100)).Nodup
    · have hok := hpp.1 hnd0
      have ih' := ih (p0 + 1) f (reqs ++ [{ page := p0, page_size := 100 }])
        (ds ++ pageEntries superset_db_id (pages p0 100))
        (ks ++ pageKeys superset_db_id (pages p0 100))
        hne' hemp' (by omega) hnd0
      constructor
      · intro hnd
        have hnd' : ((ks ++ pageKeys superset_db_id (pages p0 100))
            ++ catalogKeys pages superset_db_id (p0 + 1) n).Nodup := by
          rw [List.append_assoc]
          simpa [catalogKeys] using hnd
        rw [hunf, hok]
        exact (ih'.1 hnd').trans (by
          show some (Except.ok (_, _)) = some (Except.ok (_, _))
          simp [catalogEntries, fetchReqs, List.append_assoc])
      · intro hnd
        have hnd' : ¬ ((ks ++ pageKeys superset_db_id (pages p0 100))
            ++ catalogKeys pages superset_db_id (p0 + 1) n).Nodup := by
          rw [List.append_assoc]
          intro hc
          exact hnd (by simpa [catalogKeys] using hc)
        obtain ⟨k, hk⟩ := ih'.2 hnd'
        refine ⟨k, ?_⟩
        rw [hunf, hok]
        exact hk
    · obtain ⟨k, hk⟩ := hpp.2 hnd0
      have herr : getDatasetsLoop pages superset_db_id (f + 1) p0 reqs ds ks
          = some (.error (BuildError.DuplicateKey k)) := by
        rw [hunf, hk]
      constructor
      · intro hnd
        exfalso
        apply hnd0
        have : (ks ++ (pageKeys superset_db_id (pages p0 100)
            ++ catalogKeys pages superset_db_id (p0 + 1) n)).Nodup := by
          simpa [catalogKeys] using hnd
        rw [← List.append_assoc] at this
        exact this.of_append_left
      · intro _
        exact ⟨k, herr⟩

/-- C7. Pagination of the catalog listing: the index builder requests
pages of fixed size 100 starting at page 0, incrementing the page number
after each non-empty result, and stopping exactly when a page returns an
empty result set: when pages 0 to n-1 are non-empty, page n is empty and
the collected keys are duplicate-free, the requests issued are exactly the
pages 0 to n, each with page size 100 — for one non-empty page followed by
an empty page, exactly two fetch calls. -/
theorem C7_pagination_termination (pages : Nat → Nat → List RawDataset)
    (superset_db_id : Option Int) (n fuel : Nat)
    (hne : ∀ i, i < n → pages i 100 ≠ [])
    (hemp : pages n 100 = [])
    (hfuel : n + 1 ≤ fuel)
    (hnd : (catalogKeys pages superset_db_id 0 n).Nodup) :
    get_datasets_from_superset pages superset_db_id fuel
      = some (.ok ((List.range (n + 1)).map
            (fun i => { page := i, page_size := 100 }),
          catalogEntries pages superset_db_id 0 n)) := by
  have h := (getDatasetsLoop_spec pages superset_db_id n 0 fuel [] [] []
      (by intro i hi; simpa using hne i hi) (by simpa using hemp) hfuel
      List.nodup_nil).1 (by simpa using hnd)
  rw [get_datasets_from_superset, h, fetchReqs_eq]
  simp

/-- A listing endpoint with one non-empty page followed by empty pages. -/
def exPages : Nat → Nat → List RawDataset :=
  fun p _ => if p = 0 then
    [{ id := 10, kind := "physical", database_id := 1
       table_name := "t", schema_ := "s" }]
  else []

/-- Witness for C7: one non-empty page then an empty page causes exactly
two fetch calls, for pages 0 and 1, both of size 100. -/
theorem C7_witness :
    get_datasets_from_superset exPages none 2
      = some (.ok ([{ page := 0, page_size := 100 },
                    { page := 1, page_size := 100 }],
          [{ id := 10, key := "s.t" }])) := by
  have h := C7_pagination_termination exPages none 1 2
    (by intro i hi
        have : i = 0 := by omega
        subst this
        decide)
    (by decide) (by omega) (by decide)
  rw [h]
  rfl

/-- C6. Duplicate-key detection: a manifest with two model tables sharing
schema and name and no database filter fails with DuplicateKey; a catalog
listing with two physical datasets sharing schema and table name and no
database filter fails with DuplicateKey; and in each case a database
filter under which only one of the two entries passes makes the build
succeed with exactly that entry. -/
theorem C6_duplicate_key_detection :
    (∀ (k1 k2 : String) (t1 t2 : ModelNode),
      isModelEntry { key_long := k1, node := t1 } = true →
      isModelEntry { key_long := k2, node := t2 } = true →
      t1.schema_ = t2.schema_ → t1.name = t2.name →
      get_tables_from_dbt
          { nodes := [{ key_long := k1, node := t1 },
                      { key_long := k2, node := t2 }], sources := [] } none
        = .error (BuildError.DuplicateKey (t2.schema_ ++ "." ++ t2.name))) ∧
    (∀ (k1 k2 : String) (t1 t2 : ModelNode),
      isModelEntry { key_long := k1, node := t1 } = true →
      isModelEntry { key_long := k2, node := t2 } = true →
      t1.schema_ = t2.schema_ → t1.name = t2.name →
      t2.database ≠ t1.database →
      get_tables_from_dbt
          { nodes := [{ key_long := k1, node := t1 },
                      { key_long := k2, node := t2 }], sources := [] }
          (some t1.database)
        = .ok [(t1.schema_ ++ "." ++ t1.name, t1)]) ∧
    (∀ r1 r2 : RawDataset, r1.kind = "physical" → r2.kind = "physical" →
      r1.schema_ = r2.schema_ → r1.table_name = r2.table_name →
      ∃ k, get_datasets_from_superset
          (fun p _ => if p = 0 then [r1, r2] else []) none 2
        = some (.error (BuildError.DuplicateKey k))) ∧
    (∀ r1 r2 : RawDataset, r1.kind = "physical" → r2.kind = "physical" →
      r1.schema_ = r2.schema_ → r1.table_name = r2.table_name →
      r2.database_id ≠ r1.database_id →
      get_datasets_from_superset
          (fun p _ => if p = 0 then [r1, r2] else [])
          (some r1.database_id) 2
        = some (.ok ([{ page := 0, page_size := 100 },
                      { page := 1, page_size := 100 }],
            [{ id := r1.id, key := rawKey r1 }]))) := by
  refine ⟨?_, ?_, ?_, ?_⟩
  · intro k1 k2 t1 t2 h1 h2 hs hn
    have hkey : t1.schema_ ++ "." ++ t1.name = t2.schema_ ++ "." ++ t2.name := by
      rw [hs, hn]
    simp [get_tables_from_dbt, dbtStep, h1, h2, passesDbFilter, hkey,
      List.lookup]
    rfl
  · intro k1 k2 t1 t2 h1 h2 hs hn hdb
    simp only [get_tables_from_dbt, List.append_nil, List.foldl_cons,
      List.foldl_nil, dbtStep, h1, h2, passesDbFilter]
    simp
    rw [if_neg (fun h => hdb h.symm)]
    rfl
  · intro r1 r2 hk1 hk2 hs hn
    have hkey : rawKey r1 = rawKey r2 := by simp [rawKey, hs, hn]
    have hsel1 : selectRaw none r1 = true := by simp [selectRaw, hk1]
    have hsel2 : selectRaw none r2 = true := by simp [selectRaw, hk2]
    have hnd : ¬ (([] : List String)
        ++ catalogKeys (fun p _ => if p = 0 then [r1, r2] else []) none 0 1).Nodup := by
      simp [catalogKeys, pageKeys, hsel1, hsel2, hkey]
    have h := (getDatasetsLoop_spec (fun p _ => if p = 0 then [r1, r2] else [])
        none 1 0 2 [] [] []
        (by intro i hi
            have : i = 0 := by omega
            subst this
            simp)
        (by simp) (by omega) List.nodup_nil).2 hnd
    exact h
  · intro r1 r2 hk1 hk2 hs hn hdb
    have hsel1 : selectRaw (some r1.database_id) r1 = true := by
      simp [selectRaw, hk1]
    have hsel2 : selectRaw (some r1.database_id) r2 = false := by
      simp [selectRaw, hk2]
      exact fun h => absurd h.symm hdb
    have hnd : (([] : List String)
        ++ catalogKeys (fun p _ => if p = 0 then [r1, r2] else [])
            (some r1.database_id) 0 1).Nodup := by
      simp [catalogKeys, pageKeys, hsel1, hsel2]
    have h := (getDatasetsLoop_spec (fun p _ => if p = 0 then [r1, r2] else [])
        (some r1.database_id) 1 0 2 [] [] []
        (by intro i hi
            have : i = 0 := by omega
            subst this
            simp)
        (by simp) (by omega) List.nodup_nil).1 hnd
    rw [get_datasets_from_superset, h]
    simp [fetchReqs, catalogEntries, pageEntries, hsel1, hsel2]

/-- Witness for C6: the sample table sales.orders duplicated across
databases db1 and db2, and the twin catalog configuration. -/
theorem C6_witness :
    get_tables_from_dbt
        { nodes := [{ key_long := "model.a.orders"
                      node := { schema_ := "sales", name := "orders"
                                database := "db1", description := none
                                columns := [] } },
                    { key_long := "model.b.orders"
                      node := { schema_ := "sales", name := "orders"
                                database := "db2", description := none
                                columns := [] } }], sources := [] } none
      = .error (BuildError.DuplicateKey "sales.orders") ∧
    get_tables_from_dbt
        { nodes := [{ key_long := "model.a.orders"
                      node := { schema_ := "sales", name := "orders"
                                database := "db1", description := none
                                columns := [] } },
                    { key_long := "model.b.orders"
                      node := { schema_ := "sales", name := "orders"
                                database := "db2", description := none
                                columns := [] } }], sources := [] } (some "db1")
      = .ok [("sales.orders",
          { schema_ := "sales", name := "orders", database := "db1"
            description := none, columns := [] })] ∧
    (∃ k, get_datasets_from_superset
        (fun p _ => if p = 0 then
          [{ id := 20, kind := "physical", database_id := 1
             table_name := "orders", schema_ := "sales" },
           { id := 21, kind := "physical", database_id := 2
             table_name := "orders", schema_ := "sales" }] else []) none 2
      = some (.error (BuildError.DuplicateKey k))) ∧
    get_datasets_from_superset
        (fun p _ => if p = 0 then
          [{ id := 20, kind := "physical", database_id := 1
             table_name := "orders", schema_ := "sales" },
           { id := 21, kind := "physical", database_id := 2
             table_name := "orders", schema_ := "sales" }] else []) (some 1) 2
      = some (.ok ([{ page := 0, page_size := 100 },
                    { page := 1, page_size := 100 }],
          [{ id := 20, key := "sales.orders" }])) := by
  refine ⟨?_, ?_, ?_, ?_⟩
  · exact C6_duplicate_key_detection.1 "model.a.orders" "model.b.orders"
      _ _ (by decide) (by decide) rfl rfl
  · exact C6_duplicate_key_detection.2.1 "model.a.orders" "model.b.orders"
      _ _ (by decide) (by decide) rfl rfl (by decide)
  · exact C6_duplicate_key_detection.2.2.1 _ _ rfl rfl rfl rfl
  · exact C6_duplicate_key_detection.2.2.2 _ _ rfl rfl rfl rfl (by decide)

end DbtSupersetLineage
